import Mathlib

/-!
Verification development for the vue-quill-blog-editor repository.

The development shallowly embeds the behaviour of two source files:

* `src/QuillBlogEditor.vue` — the Vue 3 wrapper component around the Quill
  editor (toolbar preset resolution, module merging, the soft-break keyboard
  handler, the `modelValue` watch, and the event handlers registered on the
  editor instance);
* `playground/modules/ImageHandler.ts` together with the playground
  `ImageService` — the example image module (image-removal detection via
  delta diffing, image resizing through CSS classes) and the stub upload /
  delete service.

Pure functions of the source become Lean functions; DOM- or editor-mutating
code is modelled by explicit state passing (the component state carries the
editor's root HTML, the bound model value and the log of emitted events;
DOM mutation in the image module is a function on a small DOM model).
-/

namespace VueQuillBlogEditor

/-! ### Delta operations and the ImageHandler module
(`playground/modules/ImageHandler.ts`) -/

/-- The value of a delta operation's `insert` field: a text insert, an image
embed `{ image: src }`, or some other embed (for instance `{ br: true }`). -/
inductive InsertVal : Type
  | text (s : String)
  | image (src : String)
  | embedOther (name : String)
deriving DecidableEq, Repr

/-- A Quill delta operation, as far as the image handler inspects it: only the
optional `insert` field matters (`retain`/`delete` ops have no `insert`). -/
structure DeltaOp : Type where
  insert : Option InsertVal
deriving DecidableEq, Repr

/-- `ImageHandler.extractImageSources` (ImageHandler.ts lines 48–56): walk the
ops and push `op.insert.image` whenever `op.insert && op.insert.image` is
truthy.  JavaScript truthiness makes the empty-string source fall through the
guard, hence the `src = ""` test. -/
def extractImageSources (ops : List DeltaOp) : List String :=
  ops.filterMap (fun op =>
    match op.insert with
    | some (InsertVal.image src) => if src = "" then none else some src
    | _ => none)

/-- The list of URLs the `text-change` listener in `ImageHandler`'s
constructor (ImageHandler.ts lines 32–38) passes to `ImageService.delete`:
`oldImages.filter(url => !newImages.includes(url))`, where `oldImages` comes
from the `oldDelta` argument and `newImages` from `quill.getContents()`. -/
def deletedImages (oldOps newOps : List DeltaOp) : List String :=
  let oldImages := extractImageSources oldOps
  let newImages := extractImageSources newOps
  oldImages.filter (fun url => !(newImages.contains url))

/-! ### The playground ImageService (stub upload / delete) -/

/-- A file handed to `ImageService.upload`; only its identity matters. -/
structure UploadFile : Type where
  name : String
deriving DecidableEq, Repr

/-- A failure of an asynchronous network operation (a rejected promise). -/
inductive NetError : Type
  | networkFailure (msg : String)
deriving DecidableEq, Repr

/-- `ImageService.upload` (ImageService.ts): the fetch call is commented out
and the live code resolves to a fixed sample image URL for testing. -/
def ImageService.upload (_file : UploadFile) : Except NetError String :=
  Except.ok "https://picsum.photos/200/300"

/-- `ImageService.delete` (ImageService.ts): the fetch call is commented out
and the live code resolves with no value. -/
def ImageService.delete (_imageUrl : String) : Except NetError Unit :=
  Except.ok ()

/-- The upload path sketched in the source comments of `ImageService.upload`
(a single `fetch` whose result's `url` field is returned): `net` models the
network round-trip.  There is no catch, retry or fallback around it, so its
outcome — success or rejection — is returned to the caller unchanged. -/
def uploadViaFetch (net : UploadFile → Except NetError String)
    (file : UploadFile) : Except NetError String :=
  match net file with
  | Except.ok url => Except.ok url
  | Except.error e => Except.error e

/-! ### Toolbar presets and toolbar prop resolution
(`src/QuillBlogEditor.vue` lines 59–74 and 133–135) -/

/-- One toolbar entry of the preset tables: a named button, the header level
picker (`false` — the "normal" level — modelled as `none`), a list style, an
indent step, or the align picker. -/
inductive ToolbarItem : Type
  | button (name : String)
  | headerOpt (levels : List (Option Nat))
  | listStyle (kind : String)
  | indentOpt (dir : String)
  | alignOpt
deriving DecidableEq, Repr

/-- A toolbar configuration: the nested array Quill's toolbar module takes. -/
abbrev ToolbarConfig : Type := List (List ToolbarItem)

/-- The `full` preset of `TOOLBAR_PRESETS` (QuillBlogEditor.vue lines 60–69). -/
def TOOLBAR_PRESETS_full : ToolbarConfig :=
  [ [ToolbarItem.headerOpt [some 1, some 2, some 3, none]],
    [ToolbarItem.button "bold", ToolbarItem.button "italic",
      ToolbarItem.button "underline", ToolbarItem.button "strike"],
    [ToolbarItem.listStyle "ordered", ToolbarItem.listStyle "bullet"],
    [ToolbarItem.indentOpt "-1", ToolbarItem.indentOpt "+1"],
    [ToolbarItem.alignOpt],
    [ToolbarItem.button "blockquote", ToolbarItem.button "code-block"],
    [ToolbarItem.button "link", ToolbarItem.button "image"],
    [ToolbarItem.button "clean"] ]

/-- The `basic` preset of `TOOLBAR_PRESETS` (QuillBlogEditor.vue lines 70–73). -/
def TOOLBAR_PRESETS_basic : ToolbarConfig :=
  [ [ToolbarItem.button "bold", ToolbarItem.button "italic"],
    [ToolbarItem.button "link"] ]

/-- Key lookup in the `TOOLBAR_PRESETS` record: only the literal keys `full`
and `basic` are present. -/
def TOOLBAR_PRESETS (key : String) : Option ToolbarConfig :=
  if key = "full" then some TOOLBAR_PRESETS_full
  else if key = "basic" then some TOOLBAR_PRESETS_basic
  else none

/-- The `toolbar` prop: either a string naming a preset or a custom array. -/
inductive ToolbarProp : Type
  | str (s : String)
  | arr (config : ToolbarConfig)
deriving DecidableEq, Repr

/-- Toolbar resolution in `onMounted` (QuillBlogEditor.vue lines 133–135):
`Array.isArray(props.toolbar) ? props.toolbar :
TOOLBAR_PRESETS[props.toolbar] || TOOLBAR_PRESETS.full`.  Preset arrays are
non-empty objects, hence always truthy, so `||` only fires on a missing key. -/
def resolveToolbar : ToolbarProp → ToolbarConfig
  | ToolbarProp.arr config => config
  | ToolbarProp.str s => (TOOLBAR_PRESETS s).getD TOOLBAR_PRESETS_full

/-! ### Module merging (`src/QuillBlogEditor.vue` lines 122–147)

JavaScript objects are modelled as association lists with pairwise-distinct
keys; `setKey` is property assignment (`obj[k] = v`), `getKey` is property
read, `hasKey` is the `in` operator. -/

/-- Property read on an object modelled as an association list. -/
def getKey {α : Type} (m : List (String × α)) (k : String) : Option α :=
  match m with
  | [] => none
  | (k', v) :: t => if k' = k then some v else getKey t k

/-- The `in` operator: does the object have the key? -/
def hasKey {α : Type} (m : List (String × α)) (k : String) : Bool :=
  m.any (fun p => p.1 = k)

/-- Property assignment `obj[k] = v`: replaces the entry for an existing key
in place, otherwise appends the new entry (JavaScript insertion order). -/
def setKey {α : Type} (m : List (String × α)) (k : String) (v : α) :
    List (String × α) :=
  match m with
  | [] => [(k, v)]
  | (k', v') :: t => if k' = k then (k, v) :: t else (k', v') :: setKey t k v

/-- One iteration of the merge loop (QuillBlogEditor.vue lines 140–143):
`if (key === 'toolbar') continue; mergedModules[key] = modules[key]`. -/
def mergeStep {α : Type} (m : List (String × α)) (kv : String × α) :
    List (String × α) :=
  if kv.1 = "toolbar" then m else setKey m kv.1 kv.2

/-- `mergedModules` as built in `onMounted` (QuillBlogEditor.vue lines
122–147): start from the default `keyboard` binding object and the resolved
toolbar, copy every non-`toolbar` key of the caller's `options.modules` over
the defaults, then, if the caller defined `toolbar`, overwrite the toolbar
wholesale. -/
def mergedModules {α : Type} (defaultKeyboard resolvedToolbar : α)
    (callerModules : List (String × α)) : List (String × α) :=
  let base := [("keyboard", defaultKeyboard), ("toolbar", resolvedToolbar)]
  let m1 := callerModules.foldl mergeStep base
  match getKey callerModules "toolbar" with
  | some v => setKey m1 "toolbar" v
  | none => m1

/-! ### The soft line-break keyboard handler
(`src/QuillBlogEditor.vue` lines 84–101) -/

/-- A selection range in the editor (index and length). -/
structure SelRange : Type where
  index : Nat
  length : Nat
deriving DecidableEq, Repr

/-- What `quill.getLeaf` exposes of a leaf here: the identity of its parent
block, so that `currentLeaf.parent !== nextLeaf.parent` can be evaluated. -/
structure LeafInfo : Type where
  parentId : Nat
deriving DecidableEq, Repr

/-- The slice of the Quill editor the soft-break handler reads:
`getLeaf(index)[0]`, possibly `null`. -/
structure QuillLeaves : Type where
  getLeaf : Nat → Option LeafInfo

/-- An editor mutation the soft-break handler can perform. -/
inductive EditorAction : Type
  | insertEmbedBr (index : Nat)
  | setSelection (index : Nat)
deriving DecidableEq, Repr

/-- `softBreakHandler` (QuillBlogEditor.vue lines 84–101): returns the
handler's boolean result together with the list of editor mutations it
performs, in order.  With a null editor or range it bails out before any
editor access; otherwise it inserts one `br` embed, a second one when the
current leaf is non-null and the next leaf is null or has a different
parent, and finally moves the selection one position right. -/
def softBreakHandler (quill : Option QuillLeaves) (range : Option SelRange) :
    Bool × List EditorAction :=
  match quill, range with
  | some q, some r =>
    let currentLeaf := q.getLeaf r.index
    let nextLeaf := q.getLeaf (r.index + 1)
    let secondInsert : List EditorAction :=
      match currentLeaf, nextLeaf with
      | some _, none => [EditorAction.insertEmbedBr r.index]
      | some cl, some nl =>
        if cl.parentId ≠ nl.parentId then [EditorAction.insertEmbedBr r.index]
        else []
      | none, _ => []
    (false,
      EditorAction.insertEmbedBr r.index ::
      (secondInsert ++ [EditorAction.setSelection (r.index + 1)]))
  | _, _ => (false, [])

/-! ### The component's event/state model
(`src/QuillBlogEditor.vue` lines 116–204)

The wrapped Quill instance is modelled by the HTML of its root element; HTML
normalisation performed by `dangerouslyPasteHTML` is an arbitrary parameter
`normalize`.  Per Quill's documented semantics, a paste with the default
`api` source fires a `text-change` notification, which the component's
registered listener receives. -/

/-- The wrapped editor instance, reduced to what the component reads of it:
`quill.root.innerHTML`. -/
structure QuillState : Type where
  html : String
deriving DecidableEq, Repr

/-- JavaScript `s || d` on strings: the empty string is falsy. -/
def jsOr (s d : String) : String := if s = "" then d else s

/-- An event emitted by the component (`defineEmits`, QuillBlogEditor.vue
line 47). -/
inductive Emitted : Type
  | updateModelValue (payload : String)
  | textChange
  | ready (q : QuillState)
  | focus
  | blur
deriving DecidableEq, Repr

/-- The `text-change` listener (QuillBlogEditor.vue lines 172–175):
`emit('update:modelValue', quill.root.innerHTML); emit('text-change')`,
where `rootInnerHTML` is the root HTML at the time the handler runs. -/
def onTextChangeEmits (rootInnerHTML : String) : List Emitted :=
  [Emitted.updateModelValue rootInnerHTML, Emitted.textChange]

/-- The `selection-change` listener (QuillBlogEditor.vue lines 177–180):
`if (range === null) emit('blur'); else emit('focus')`. -/
def onSelectionChangeEmits (range : Option SelRange) : List Emitted :=
  match range with
  | none => [Emitted.blur]
  | some _ => [Emitted.focus]

/-- The `watch` on `props.modelValue` (QuillBlogEditor.vue lines 196–204):
returns the HTML handed to `dangerouslyPasteHTML`, or `none` when no paste
call is made (editor absent, or new value already equal to the root HTML). -/
def watchModelValue (quill : Option QuillState) (newVal : String) :
    Option String :=
  match quill with
  | none => none
  | some q => if newVal ≠ q.html then some (jsOr newVal "") else none

/-- The component together with the parent `v-model` binding: the editor
instance (if mounted), the bound `modelValue` on the parent, and the log of
emitted events, oldest first. -/
structure CompState : Type where
  quill : Option QuillState
  modelValue : String
  emitted : List Emitted
deriving DecidableEq, Repr

/-- The parent's `v-model` contract: each emitted `update:modelValue` event
overwrites the bound model with its payload. -/
def vmodelApply (model : String) (es : List Emitted) : String :=
  es.foldl (fun m e =>
    match e with
    | Emitted.updateModelValue p => p
    | _ => m) model

/-- The payload of the most recent `update:modelValue` event in the log. -/
def lastUpdatePayload (es : List Emitted) : Option String :=
  es.foldl (fun acc e =>
    match e with
    | Emitted.updateModelValue p => some p
    | _ => acc) none

/-- An external stimulus to the mounted component: a user edit inside the
editor (the root HTML becomes `newHtml` and Quill fires `text-change`), a
`selection-change` notification, or the parent setting the `modelValue`
prop. -/
inductive CompEvent : Type
  | userEdit (newHtml : String)
  | selChange (range : Option SelRange)
  | setProp (newVal : String)
deriving DecidableEq, Repr

/-- One reaction of the component to a stimulus.  The Quill listeners only
exist once the editor does, so events on an absent editor change nothing.
For `setProp`, the parent first rebinds `modelValue`, then the `watch`
callback runs: a paste replaces the root HTML by `normalize` of the pasted
HTML and fires `text-change`, whose listener emits the update events, which
in turn rebind the parent's model. -/
def step (normalize : String → String) (s : CompState) :
    CompEvent → CompState
  | CompEvent.userEdit newHtml =>
    match s.quill with
    | none => s
    | some _ =>
      let es := onTextChangeEmits newHtml
      { quill := some ⟨newHtml⟩
        modelValue := vmodelApply s.modelValue es
        emitted := s.emitted ++ es }
  | CompEvent.selChange range =>
    match s.quill with
    | none => s
    | some _ =>
      let es := onSelectionChangeEmits range
      { s with
        modelValue := vmodelApply s.modelValue es
        emitted := s.emitted ++ es }
  | CompEvent.setProp newVal =>
    let s1 : CompState := { s with modelValue := newVal }
    match s1.quill with
    | none => s1
    | some q =>
      match watchModelValue (some q) newVal with
      | none => s1
      | some pasted =>
        let newHtml := normalize pasted
        let es := onTextChangeEmits newHtml
        { quill := some ⟨newHtml⟩
          modelValue := vmodelApply s1.modelValue es
          emitted := s1.emitted ++ es }

/-- `onMounted` (QuillBlogEditor.vue lines 116–183): with no container the
hook returns before creating the editor.  Otherwise the editor is created,
`props.modelValue || ''` is pasted (the listeners are registered only
afterwards, so this paste emits nothing), and finally `emit('ready', quill)`
fires with the editor instance. -/
def mount (normalize : String → String) (containerPresent : Bool)
    (initialModelValue : String) : CompState :=
  if containerPresent then
    let q : QuillState := ⟨normalize (jsOr initialModelValue "")⟩
    { quill := some q
      modelValue := initialModelValue
      emitted := [Emitted.ready q] }
  else
    { quill := none, modelValue := initialModelValue, emitted := [] }

/-! ### Image resizing (`playground/modules/ImageHandler.ts` lines 197–215)

The editor root is modelled by its list of `img` elements in document order,
each carrying its class list.  `classList` is a `DOMTokenList`: `remove`
drops every occurrence of the token, `add` appends the token unless it is
already present. -/

/-- An `img` element inside the editor root, reduced to its class list. -/
structure ImgEl : Type where
  classes : List String
deriving DecidableEq, Repr

/-- The editor root element: its `img` descendants in document order. -/
structure EditorRoot : Type where
  imgs : List ImgEl
deriving DecidableEq, Repr

/-- The size argument of `adjustImageSize`. -/
inductive ImageSize : Type
  | small
  | medium
  | large
deriving DecidableEq, Repr

/-- The width class each size maps to (ImageHandler.ts lines 204–214). -/
def sizeClass : ImageSize → String
  | ImageSize.small => "w-3/5"
  | ImageSize.medium => "w-4/5"
  | ImageSize.large => "w-full"

/-- The three width classes removed before the new one is applied. -/
def widthClasses : List String := ["w-3/5", "w-4/5", "w-full"]

/-- `classList.remove(c)`: drop the token from the list. -/
def classListRemove (cls : List String) (c : String) : List String :=
  cls.filter (fun x => x ≠ c)

/-- `classList.add(c)`: append the token unless already present. -/
def classListAdd (cls : List String) (c : String) : List String :=
  if cls.contains c then cls else cls ++ [c]

/-- The class-list update `adjustImageSize` applies to the selected image:
`remove('w-3/5', 'w-4/5', 'w-full')` followed by `add` of the class for the
requested size (ImageHandler.ts lines 203–214). -/
def resizeClasses (cls : List String) (size : ImageSize) : List String :=
  classListAdd
    (classListRemove (classListRemove (classListRemove cls "w-3/5") "w-4/5")
      "w-full")
    (sizeClass size)

/-- Is this image selected (`img.image-selected`)? -/
def isSelected (img : ImgEl) : Bool := img.classes.contains "image-selected"

/-- `querySelector('img.image-selected')`: the first selected image in
document order, as an index into the root's image list. -/
def selectedImageIdx (r : EditorRoot) : Option Nat := r.imgs.findIdx? isSelected

/-- Replace the element at position `i` by `f` of it; out-of-range indices
leave the list unchanged. -/
def modifyAt {α : Type} (l : List α) (i : Nat) (f : α → α) : List α :=
  match l, i with
  | [], _ => []
  | x :: t, 0 => f x :: t
  | x :: t, Nat.succ i => x :: modifyAt t i f

/-- `ImageHandler.adjustImageSize` (ImageHandler.ts lines 197–215) as a
function on the editor root: bail out when the root is absent or no image is
selected, otherwise rewrite the selected image's class list. -/
def adjustImageSize (root : Option EditorRoot) (size : ImageSize) :
    Option EditorRoot :=
  match root with
  | none => none
  | some r =>
    match selectedImageIdx r with
    | none => some r
    | some i =>
      some ⟨modifyAt r.imgs i (fun img => ⟨resizeClasses img.classes size⟩)⟩

/-! ## Theorems -/

/-- C1, counterexample: when the previous snapshot contains the image URL
`a` twice and the current snapshot no longer contains it, the module issues
two `ImageService.delete` calls for the one removed URL — not the single
call per removed URL that a set-difference would produce. -/
theorem deletedImages_not_set_difference :
    deletedImages
        [DeltaOp.mk (some (InsertVal.image "a")),
          DeltaOp.mk (some (InsertVal.image "a"))] [] = ["a", "a"] ∧
    ¬ (deletedImages
        [DeltaOp.mk (some (InsertVal.image "a")),
          DeltaOp.mk (some (InsertVal.image "a"))] []).count "a" = 1 := by
  constructor
  · rfl
  · decide

/-- C1, amended: on each content-change notification the module issues one
`ImageService.delete` call per occurrence, in the previous snapshot's
extracted image-source list, of a URL absent from the current snapshot's
list (so a URL occurring several times before removal is deleted several
times), and issues no delete call for any URL still present in the current
snapshot. -/
theorem deletedImages_count (oldOps newOps : List DeltaOp) (u : String) :
    (deletedImages oldOps newOps).count u =
      if u ∈ extractImageSources newOps then 0
      else (extractImageSources oldOps).count u := by
  unfold deletedImages
  by_cases hu : u ∈ extractImageSources newOps
  · rw [if_pos hu, List.count_eq_zero]
    intro hmem
    have h2 := (List.mem_filter.mp hmem).2
    simp [hu] at h2
  · rw [if_neg hu]
    exact List.count_filter (by simp [hu])

/-- C1, amended, witness at a concrete input: the snapshot pair that removes
the image `a` while `b` stays produces exactly one delete call for `a` and
none for `b`. -/
theorem deletedImages_count_witness :
    (deletedImages
        [DeltaOp.mk (some (InsertVal.image "a")),
          DeltaOp.mk (some (InsertVal.image "b"))]
        [DeltaOp.mk (some (InsertVal.image "b"))]).count "a" =
      (extractImageSources
        [DeltaOp.mk (some (InsertVal.image "a")),
          DeltaOp.mk (some (InsertVal.image "b"))]).count "a" := by
  have h := deletedImages_count
    [DeltaOp.mk (some (InsertVal.image "a")),
      DeltaOp.mk (some (InsertVal.image "b"))]
    [DeltaOp.mk (some (InsertVal.image "b"))] "a"
  rwa [if_neg (by decide)] at h

/-- C7: in the example image service a failure of the network round-trip
surfaces to the caller as the rejection itself, unhandled (no retry,
recovery or fallback value); on success `upload` resolves to the URL string
of the uploaded image (the live stub resolves to the fixed sample URL) and
`delete` resolves with no value. -/
theorem imageService_promises (f : UploadFile) (u : String)
    (net : UploadFile → Except NetError String) (e : NetError) :
    ImageService.upload f = Except.ok "https://picsum.photos/200/300" ∧
    ImageService.delete u = Except.ok () ∧
    (net f = Except.error e → uploadViaFetch net f = Except.error e) ∧
    (∀ url, net f = Except.ok url → uploadViaFetch net f = Except.ok url) := by
  refine ⟨rfl, rfl, ?_, ?_⟩
  · intro h
    simp [uploadViaFetch, h]
  · intro url h
    simp [uploadViaFetch, h]

/-- C7, witness: a network failure during upload is returned to the caller
unchanged. -/
theorem imageService_promises_witness :
    uploadViaFetch (fun _ => Except.error (NetError.networkFailure "down"))
        (UploadFile.mk "pic.png") =
      Except.error (NetError.networkFailure "down") :=
  (imageService_promises (UploadFile.mk "pic.png") "u"
      (fun _ => Except.error (NetError.networkFailure "down"))
      (NetError.networkFailure "down")).2.2.1 rfl

/-- C8: an array toolbar prop is used unchanged; the strings `full` and
`basic` resolve to their presets; any other string falls back to the `full`
preset. -/
theorem resolveToolbar_spec (config : ToolbarConfig) (s : String)
    (hs : s ≠ "full" ∧ s ≠ "basic") :
    resolveToolbar (ToolbarProp.arr config) = config ∧
    resolveToolbar (ToolbarProp.str "full") = TOOLBAR_PRESETS_full ∧
    resolveToolbar (ToolbarProp.str "basic") = TOOLBAR_PRESETS_basic ∧
    resolveToolbar (ToolbarProp.str s) = TOOLBAR_PRESETS_full := by
  refine ⟨rfl, rfl, rfl, ?_⟩
  simp [resolveToolbar, TOOLBAR_PRESETS, hs.1, hs.2]

/-- C8, witness: the unknown preset name `fancy` resolves to the `full`
preset. -/
theorem resolveToolbar_spec_witness :
    resolveToolbar (ToolbarProp.str "fancy") = TOOLBAR_PRESETS_full :=
  (resolveToolbar_spec [] "fancy" (by decide)).2.2.2

/-- C9: the soft-break handler returns `false` for every editor and range
(the default newline action is always suppressed), and with a null editor or
a null range it performs no editor mutation at all — no insertion and no
selection change. -/
theorem softBreakHandler_safe (quill : Option QuillLeaves)
    (range : Option SelRange) :
    (softBreakHandler quill range).1 = false ∧
    (quill = none ∨ range = none → (softBreakHandler quill range).2 = []) := by
  cases quill with
  | none => exact ⟨rfl, fun _ => rfl⟩
  | some q =>
    cases range with
    | none => exact ⟨rfl, fun _ => rfl⟩
    | some r =>
      refine ⟨rfl, ?_⟩
      rintro (h | h) <;> simp at h

/-- C9, witness: with no editor instance the handler returns `false` and
performs nothing. -/
theorem softBreakHandler_safe_witness :
    (softBreakHandler none (some (SelRange.mk 0 0))).2 = [] :=
  (softBreakHandler_safe none (some (SelRange.mk 0 0))).2 (Or.inl rfl)

/-- `s || ''` is just `s` for strings. -/
theorem jsOr_self (s : String) : jsOr s "" = s := by
  unfold jsOr
  split <;> simp_all

/-- Appending the two events of the `text-change` listener makes the update
payload the most recent one. -/
theorem lastUpdatePayload_after_update (xs : List Emitted) (h : String) :
    lastUpdatePayload
        (xs ++ [Emitted.updateModelValue h, Emitted.textChange]) = some h := by
  unfold lastUpdatePayload
  rw [List.foldl_append]
  rfl

/-- C3: on a `modelValue` prop change with the editor mounted, the new value
is pasted through the content-replacement API exactly when it differs from
the editor's current root HTML; when it is already equal, no paste call is
made. -/
theorem watch_paste_iff (q : QuillState) (newVal : String) :
    (newVal ≠ q.html → watchModelValue (some q) newVal = some newVal) ∧
    (newVal = q.html → watchModelValue (some q) newVal = none) := by
  constructor
  · intro h
    simp [watchModelValue, h, jsOr_self]
  · intro h
    simp [watchModelValue, h]

/-- C3, witness: a differing new value is pasted verbatim. -/
theorem watch_paste_iff_witness :
    watchModelValue (some (QuillState.mk "<p>a</p>")) "<p>b</p>" =
      some "<p>b</p>" :=
  (watch_paste_iff (QuillState.mk "<p>a</p>") "<p>b</p>").1 (by decide)

/-- C4: on every `text-change` notification from the mounted editor, the
component appends to its emitted log exactly an `update:modelValue` event
whose payload is the editor root's current HTML, followed by a `text-change`
event; the editor's root HTML after the step is that same payload. -/
theorem textChange_emits_html (normalize : String → String) (s : CompState)
    (newHtml : String) (hq : s.quill.isSome = true) :
    (step normalize s (CompEvent.userEdit newHtml)).emitted =
      s.emitted ++ [Emitted.updateModelValue newHtml, Emitted.textChange] ∧
    (step normalize s (CompEvent.userEdit newHtml)).quill =
      some (QuillState.mk newHtml) := by
  cases hs : s.quill with
  | none => rw [hs] at hq; simp at hq
  | some q0 => simp [step, hs, onTextChangeEmits]

/-- C4, witness: a concrete edit emits the update event carrying the new
root HTML. -/
theorem textChange_emits_html_witness :
    (step id (CompState.mk (some (QuillState.mk "")) "" [])
        (CompEvent.userEdit "<p>x</p>")).quill =
      some (QuillState.mk "<p>x</p>") :=
  (textChange_emits_html id (CompState.mk (some (QuillState.mk "")) "" [])
      "<p>x</p>" rfl).2

/-- C5: after each synchronization point the externally visible HTML mirror
matches the editor's internal root HTML — after the component reacts to a
`text-change` notification, the last emitted `update:modelValue` payload is
the root HTML; after it reacts to a `modelValue` prop change, the bound
`modelValue` is the root HTML. -/
theorem sync_points_mirror (normalize : String → String) (s : CompState) :
    (∀ newHtml q,
        (step normalize s (CompEvent.userEdit newHtml)).quill = some q →
        lastUpdatePayload
            (step normalize s (CompEvent.userEdit newHtml)).emitted =
          some q.html) ∧
    (∀ newVal q,
        (step normalize s (CompEvent.setProp newVal)).quill = some q →
        (step normalize s (CompEvent.setProp newVal)).modelValue = q.html) := by
  constructor
  · intro newHtml q hq
    cases hs : s.quill with
    | none => simp [step, hs] at hq
    | some q0 =>
      simp [step, hs, onTextChangeEmits] at hq
      subst hq
      simpa [step, hs, onTextChangeEmits] using
        lastUpdatePayload_after_update s.emitted newHtml
  · intro newVal q hq
    cases hs : s.quill with
    | none => simp [step, hs] at hq
    | some q0 =>
      by_cases hne : newVal = q0.html
      · simp [step, hs, watchModelValue, hne] at hq ⊢
        simp [← hq, hne]
      · simp [step, hs, watchModelValue, hne, jsOr_self, onTextChangeEmits,
          vmodelApply] at hq ⊢
        rw [← hq]

/-- C5, witness: after a concrete edit, the last emitted payload is the
editor's root HTML. -/
theorem sync_points_mirror_witness :
    lastUpdatePayload
        (step id (CompState.mk (some (QuillState.mk "<p>a</p>")) "<p>a</p>" [])
          (CompEvent.userEdit "<p>b</p>")).emitted = some "<p>b</p>" :=
  (sync_points_mirror id
      (CompState.mk (some (QuillState.mk "<p>a</p>")) "<p>a</p>" [])).1
    "<p>b</p>" (QuillState.mk "<p>b</p>") rfl

/-- C6: on a `selection-change` notification from the mounted editor the
component emits `blur` exactly when the range is null and `focus` exactly
when it is not, appending those events to its log; and a mount with a
container present ends by emitting `ready` carrying the created editor
instance. -/
theorem selectionChange_and_ready (normalize : String → String)
    (s : CompState) (range : Option SelRange) (v : String) (q : QuillState)
    (hq : s.quill = some q) :
    (onSelectionChangeEmits range = [Emitted.blur] ↔ range = none) ∧
    (onSelectionChangeEmits range = [Emitted.focus] ↔ range ≠ none) ∧
    (step normalize s (CompEvent.selChange range)).emitted =
      s.emitted ++ onSelectionChangeEmits range ∧
    (mount normalize true v).emitted =
      [Emitted.ready (QuillState.mk (normalize (jsOr v "")))] := by
  refine ⟨?_, ?_, ?_, ?_⟩
  · cases range <;> simp [onSelectionChangeEmits]
  · cases range <;> simp [onSelectionChangeEmits]
  · simp [step, hq]
  · simp [mount]

/-- C6, witness: with a null range the component emits `blur`. -/
theorem selectionChange_and_ready_witness :
    onSelectionChangeEmits none = [Emitted.blur] :=
  ((selectionChange_and_ready id
      (CompState.mk (some (QuillState.mk "")) "" []) none ""
      (QuillState.mk "") rfl).1).mpr rfl

/-- Reading back the key just assigned yields the assigned value. -/
theorem getKey_setKey_self {α : Type} (m : List (String × α)) (k : String)
    (v : α) : getKey (setKey m k v) k = some v := by
  induction m with
  | nil => simp [setKey, getKey]
  | cons p t ih =>
    obtain ⟨k', v'⟩ := p
    by_cases h : k' = k
    · simp [setKey, getKey, h]
    · simp [setKey, getKey, h, ih]

/-- Assignment to one key leaves reads of other keys unchanged. -/
theorem getKey_setKey_ne {α : Type} (m : List (String × α)) (k k' : String)
    (v : α) (h : k' ≠ k) : getKey (setKey m k v) k' = getKey m k' := by
  induction m with
  | nil => simp [setKey, getKey, Ne.symm h]
  | cons p t ih =>
    obtain ⟨k0, v0⟩ := p
    by_cases h0 : k0 = k
    · subst h0
      simp [setKey, getKey, Ne.symm h]
    · simp [setKey, getKey, h0, ih]

/-- The merge loop does not touch keys that do not occur in the caller's
modules object. -/
theorem getKey_foldl_mergeStep_not_mem {α : Type} (l : List (String × α))
    (m : List (String × α)) (k : String) (hk : k ∉ l.map Prod.fst) :
    getKey (l.foldl mergeStep m) k = getKey m k := by
  induction l generalizing m with
  | nil => rfl
  | cons p t ih =>
    obtain ⟨k0, v0⟩ := p
    simp only [List.map_cons, List.mem_cons] at hk
    push_neg at hk
    rw [List.foldl_cons, ih _ hk.2]
    unfold mergeStep
    by_cases h0 : k0 = "toolbar"
    · simp [h0]
    · simp [h0, getKey_setKey_ne _ _ _ _ hk.1]

/-- The merge loop skips the `toolbar` key entirely. -/
theorem getKey_foldl_mergeStep_toolbar {α : Type} (l : List (String × α))
    (m : List (String × α)) :
    getKey (l.foldl mergeStep m) "toolbar" = getKey m "toolbar" := by
  induction l generalizing m with
  | nil => rfl
  | cons p t ih =>
    obtain ⟨k0, v0⟩ := p
    rw [List.foldl_cons, ih]
    unfold mergeStep
    by_cases h0 : k0 = "toolbar"
    · simp [h0]
    · simp [h0, getKey_setKey_ne _ _ _ _ (fun h => h0 h.symm)]

/-- After the merge loop, every non-`toolbar` caller entry is readable at
its key (the caller's keys being pairwise distinct, as in a JavaScript
object). -/
theorem getKey_foldl_mergeStep_mem {α : Type} (l : List (String × α))
    (m : List (String × α)) (k : String) (v : α)
    (hnd : (l.map Prod.fst).Nodup) (hk : k ≠ "toolbar") (hmem : (k, v) ∈ l) :
    getKey (l.foldl mergeStep m) k = some v := by
  induction l generalizing m with
  | nil => simp at hmem
  | cons p t ih =>
    obtain ⟨k0, v0⟩ := p
    simp only [List.map_cons, List.nodup_cons] at hnd
    rw [List.foldl_cons]
    rcases List.mem_cons.mp hmem with heq | hmem'
    · injection heq with h1 h2
      subst h1
      subst h2
      rw [getKey_foldl_mergeStep_not_mem t _ k hnd.1]
      simp [mergeStep, hk, getKey_setKey_self]
    · exact ih _ hnd.2 hmem'

/-- On an association list with pairwise-distinct keys, membership of a pair
determines the read at its key. -/
theorem getKey_eq_some_of_mem {α : Type} (l : List (String × α)) (k : String)
    (v : α) (hnd : (l.map Prod.fst).Nodup) (hmem : (k, v) ∈ l) :
    getKey l k = some v := by
  induction l with
  | nil => simp at hmem
  | cons p t ih =>
    obtain ⟨k0, v0⟩ := p
    simp only [List.map_cons, List.nodup_cons] at hnd
    rcases List.mem_cons.mp hmem with heq | hmem'
    · injection heq with h1 h2
      subst h1
      subst h2
      simp [getKey]
    · have hne : k0 ≠ k := by
        rintro rfl
        exact hnd.1 (List.mem_map.mpr ⟨(k0, v), hmem', rfl⟩)
      simp [getKey, hne, ih hnd.2 hmem']

/-- C2: the module merge is an override-by-key merge — for every key the
caller's modules object defines (its keys being pairwise distinct), the
merged module configuration holds the caller's entry for that key, so the
caller's entry replaces the default; in particular a caller `keyboard` entry
replaces the default keyboard bindings, and a caller `toolbar` entry
replaces the default toolbar wholesale. -/
theorem caller_modules_override {α : Type} (defaultKeyboard resolvedToolbar : α)
    (callerModules : List (String × α))
    (hnd : (callerModules.map Prod.fst).Nodup) (k : String) (v : α)
    (hmem : (k, v) ∈ callerModules) :
    getKey (mergedModules defaultKeyboard resolvedToolbar callerModules) k =
      some v := by
  by_cases hk : k = "toolbar"
  · subst hk
    have htb := getKey_eq_some_of_mem callerModules "toolbar" v hnd hmem
    simp only [mergedModules, htb]
    exact getKey_setKey_self _ _ _
  · cases htb : getKey callerModules "toolbar" with
    | none =>
      simp only [mergedModules, htb]
      exact getKey_foldl_mergeStep_mem _ _ k v hnd hk hmem
    | some w =>
      simp only [mergedModules, htb]
      rw [getKey_setKey_ne _ _ _ _ hk]
      exact getKey_foldl_mergeStep_mem _ _ k v hnd hk hmem

/-- C2, witness: a caller supplying its own `keyboard` and `toolbar` entries
sees both override the defaults. -/
theorem caller_modules_override_witness :
    getKey (mergedModules 0 9 [("keyboard", 1), ("toolbar", 2)]) "keyboard" =
      some 1 :=
  caller_modules_override 0 9 [("keyboard", 1), ("toolbar", 2)] (by decide)
    "keyboard" 1 (by decide)

/-- `modifyAt` preserves the length of the list. -/
theorem modifyAt_length {α : Type} (l : List α) (i : Nat) (f : α → α) :
    (modifyAt l i f).length = l.length := by
  induction l generalizing i with
  | nil => rfl
  | cons x t ih =>
    cases i with
    | zero => rfl
    | succ j => simp [modifyAt, ih]

/-- `modifyAt` leaves every other position untouched. -/
theorem modifyAt_getElem?_ne {α : Type} (l : List α) (i j : Nat) (f : α → α)
    (h : j ≠ i) : (modifyAt l i f)[j]? = l[j]? := by
  induction l generalizing i j with
  | nil => rfl
  | cons x t ih =>
    cases i with
    | zero =>
      cases j with
      | zero => exact absurd rfl h
      | succ j' => simp [modifyAt]
    | succ i' =>
      cases j with
      | zero => simp [modifyAt]
      | succ j' =>
        simp only [modifyAt, List.getElem?_cons_succ]
        exact ih i' j' (fun hc => h (by rw [hc]))

/-- `modifyAt` maps the element at the modified position. -/
theorem modifyAt_getElem?_self {α : Type} (l : List α) (i : Nat) (f : α → α) :
    (modifyAt l i f)[i]? = (l[i]?).map f := by
  induction l generalizing i with
  | nil => cases i <;> rfl
  | cons x t ih =>
    cases i with
    | zero => simp [modifyAt]
    | succ j => simp [modifyAt, ih]

/-- The class-list rewrite of `adjustImageSize` in closed form: keep every
class that is not one of the three width classes, in order, and append the
width class of the requested size. -/
theorem resizeClasses_eq (cls : List String) (size : ImageSize) :
    resizeClasses cls size =
      cls.filter (fun c => !(widthClasses.contains c)) ++ [sizeClass size] := by
  unfold resizeClasses classListAdd classListRemove
  rw [List.filter_filter, List.filter_filter]
  have hpred : ∀ c ∈ cls,
      (((c ≠ "w-full" : Bool) && (c ≠ "w-4/5" : Bool)) && (c ≠ "w-3/5" : Bool))
        = !(widthClasses.contains c) := by
    intro c _
    by_cases h1 : c = "w-3/5" <;> by_cases h2 : c = "w-4/5" <;>
      by_cases h3 : c = "w-full" <;> simp [widthClasses, h1, h2, h3]
  rw [List.filter_congr hpred]
  have hsz : sizeClass size ∈ widthClasses := by
    cases size <;> simp [sizeClass, widthClasses]
  have hnot : (cls.filter (fun c => !(widthClasses.contains c))).contains
      (sizeClass size) = false := by
    simp [List.mem_filter, hsz]
  simp [hnot, hsz]

/-- C10: with a selected image present, `adjustImageSize` rewrites exactly
that image's class list — every width class other than the requested one is
removed, the class of the requested size is present exactly once (appended),
and every other class survives in order — while every other image is left
unchanged; with no root or no selected image nothing changes. -/
theorem adjustImageSize_spec (r : EditorRoot) (i : Nat) (size : ImageSize)
    (hi : selectedImageIdx r = some i) :
    (∃ r', adjustImageSize (some r) size = some r' ∧
      r'.imgs.length = r.imgs.length ∧
      (∀ j, j ≠ i → r'.imgs[j]? = r.imgs[j]?) ∧
      (∀ img, r.imgs[i]? = some img →
        r'.imgs[i]? = some (ImgEl.mk
          (img.classes.filter (fun c => !(widthClasses.contains c)) ++
            [sizeClass size])))) ∧
    adjustImageSize none size = none ∧
    (∀ r2 : EditorRoot, selectedImageIdx r2 = none →
      adjustImageSize (some r2) size = some r2) := by
  refine ⟨?_, rfl, ?_⟩
  · refine ⟨⟨modifyAt r.imgs i
        (fun img => ⟨resizeClasses img.classes size⟩)⟩, ?_, ?_, ?_, ?_⟩
    · simp [adjustImageSize, hi]
    · exact modifyAt_length _ _ _
    · intro j hj
      exact modifyAt_getElem?_ne _ _ _ _ hj
    · intro img himg
      show (modifyAt r.imgs i _)[i]? = _
      rw [modifyAt_getElem?_self, himg]
      simp [resizeClasses_eq]
  · intro r2 h2
    simp [adjustImageSize, h2]

/-- C10, witness: resizing with a selected image carrying `w-full` swaps the
width class for `w-3/5` and keeps the other classes. -/
theorem adjustImageSize_spec_witness :
    adjustImageSize none ImageSize.small = none :=
  (adjustImageSize_spec
      (EditorRoot.mk [ImgEl.mk ["x", "image-selected", "w-full"]]) 0
      ImageSize.small (by decide)).2.1

end VueQuillBlogEditor
